import Mathlib

/-! Verification development for the Adafruit Talking Clock sketch
(`TalkingClock.ino`).  We shallowly embed: the clip-name tables and the
time-to-phrase construction in `loop`, the filename assembly and the
sample/envelope loop of `playfile`, the button-debounce logic of `loop`,
and the eye-blink timer ISR.  Machine integers are modelled as `Nat`/`Int`
with explicit wraparound where the C types make it observable
(`int8_t` sample-window counter, `uint8_t` blink counters, `unsigned long`
millisecond timestamps). -/

namespace TalkingClock

/-- Clip-name table `hours` from the sketch; index 0 is `"h12"` because the
0 hour is pronounced "twelve". -/
def hours : List String :=
  ["h12","h01","h02","h03","h04","h05","h06","h07","h08","h09","h10","h11"]

/-- Clip-name table `mTens`: exact multiples of ten ("o'clock", "ten", ...). -/
def mTens : List String := ["m00","m10","m20","m30","m40","m50"]

/-- Clip-name table `mTeens`: minutes 11..19. -/
def mTeens : List String := ["m11","m12","m13","m14","m15","m16","m17","m18","m19"]

/-- Clip-name table `mTenX`: leading tens clip ("oh-", "twenty-", ...).
The sketch stores `NULL` at index 1, modelled as `none`. -/
def mTenX : List (Option String) :=
  [some "m0x", none, some "m2x", some "m3x", some "m4x", some "m5x"]

/-- Clip-name table `mins`: trailing ones clip ("-one" .. "-nine"). -/
def mins : List String := ["m1","m2","m3","m4","m5","m6","m7","m8","m9"]

/-- Clip-name table `ampm`. -/
def ampm : List String := ["am","pm"]

/-- Minute-phrase branch of `loop`: `hi = m / 10`, `lo = m % 10`, and the
three mutually exclusive branches of the sketch.  Table lookups are partial
(`none` models an out-of-bounds read); dereferencing the `NULL` entry of
`mTenX` is likewise modelled as `none`, since the sketch would pass a null
pointer to `playfile`. -/
def minuteClips? (m : Nat) : Option (List String) :=
  let hi := m / 10
  let lo := m % 10
  if lo = 0 then (mTens[hi]?).map (fun c => [c])
  else if hi = 1 then (mTeens[lo - 1]?).map (fun c => [c])
  else do
    let t ← mTenX[hi]?
    let tc ← t
    let oc ← mins[lo - 1]?
    pure [tc, oc]

/-- Phrase construction performed by one activation of `loop`: the ordered
list of names handed to `playfile` — announcement, hour clip, minute
clips, then the period clip. -/
def translate? (h m : Nat) : Option (List String) :=
  let pmFlag : Nat := if 12 ≤ h then 1 else 0
  let h12 : Nat := if 12 ≤ h then h - 12 else h
  do
    let hourClip ← hours[h12]?
    let minClips ← minuteClips? m
    let periodClip ← ampm[pmFlag]?
    pure ("annc" :: hourClip :: (minClips ++ [periodClip]))

/-- Total view of the phrase sequence (empty on a modelled lookup failure;
`translate_total_no_null` shows the failure case never happens). -/
def translate (h m : Nat) : List String := (translate? h m).getD []

/-- Minute clips with the same defaulting convention. -/
def minuteClips (m : Nat) : List String := (minuteClips? m).getD []

/-- Fixed `.WAV` extension occupying the last four characters of the
static filename buffer in `playfile`. -/
def wavExt : List Char := ['.', 'W', 'A', 'V']

/-- Initial contents of the static buffer `char filename[] = "XXXXXXXX.WAV"`. -/
def initBuf : List Char := "XXXXXXXX.WAV".toList

/-- Effect of `memcpy_P(&filename[8 - len], name, len)` on the 12-character
buffer: the `len` characters ending at index 7 are overwritten with `name`,
everything else is untouched. -/
def writeName (buf name : List Char) : List Char :=
  buf.take (8 - name.length) ++ name ++ buf.drop 8

/-- The string `fullName = &filename[8 - len]` that `playfile` hands to
`file.open` (read up to the terminating NUL at the end of the buffer). -/
def fullName (buf name : List Char) : List Char :=
  (writeName buf name).drop (8 - name.length)

/-- Signed 8-bit wraparound, the semantics of the `int8_t` window counter
in `playfile`. -/
def wrap8 (n : Int) : Int := (n + 128) % 256 - 128

/-- State of the amplitude-envelope tracking inside the `playfile` sample
loop: running low/high bounds and the `int8_t` iteration counter. -/
structure EnvState where
  lo : Int
  hi : Int
  counter : Int
deriving DecidableEq

/-- Initial envelope state of `playfile`: `int8_t s, lo=0, hi=0, counter=-1`. -/
def envInit : EnvState := ⟨0, 0, -1⟩

/-- The brightness computation at a window boundary: `(hi - lo) * 4`,
capped at 255 (`if(b > 255) b = 255`).  There is no explicit lower cap. -/
def clampB (b : Int) : Int := if b > 255 then 255 else b

/-- One iteration of the sample loop in `playfile`: increment the `int8_t`
counter; on reaching 0 write the scaled amplitude range to the mouth LED
and reset `lo = hi = s`; otherwise fold the sample into the range via the
`if (s < lo) ... else if (s > hi) ...` update.  The optional `Int` is the
`analogWrite(LEDMOUTH, ...)` value, when one happens. -/
def envStep (s : Int) (st : EnvState) : EnvState × Option Int :=
  if wrap8 (st.counter + 1) = 0 then
    (⟨s, s, 0⟩, some (clampB ((st.hi - st.lo) * 4)))
  else if s < st.lo then (⟨s, st.hi, wrap8 (st.counter + 1)⟩, none)
  else if s > st.hi then (⟨st.lo, s, wrap8 (st.counter + 1)⟩, none)
  else (⟨st.lo, st.hi, wrap8 (st.counter + 1)⟩, none)

/-- The sample loop run over a list of observed samples, collecting the
mouth-LED writes in order. -/
def envRun : List Int → EnvState → EnvState × List Int
  | [], st => (st, [])
  | s :: rest, st =>
    let p := envStep s st
    let r := envRun rest p.1
    (r.1, p.2.toList ++ r.2)

/-- Result of one `playfile` call, per the three exit paths of the code. -/
inductive PlaybackResult where
  | Completed
  | OpenFailed
  | FormatInvalid
deriving DecidableEq

/-- State of the mouth LED pin: `off` is the high-impedance
`pinMode(LEDMOUTH, INPUT)` state, `bright b` the last `analogWrite` level. -/
inductive LedState where
  | off
  | bright (b : Int)
deriving DecidableEq

/-- An audio asset as `playfile` observes it: whether `wave.create`
accepts its header, and the sample bytes the loop reads during playback. -/
structure Clip where
  validWav : Bool
  samples : List Int
deriving DecidableEq

/-- The LED level after a run of the sample loop: the last `analogWrite`
if any write happened, otherwise the level from before the call. -/
def lastLed (ws : List Int) (led : LedState) : LedState :=
  match ws.getLast? with
  | some b => LedState.bright b
  | none => led

/-- One `playfile` call: open the named file through the store (the
`file.open` path), check the header (`wave.create`), and on success run
the sample loop.  Returns the playback result, the mouth-LED state on
return, and the `Serial` log lines emitted. -/
def playfile (store : String → Option Clip) (name : String) (led : LedState) :
    PlaybackResult × LedState × List String :=
  match store name with
  | none =>
    (PlaybackResult.OpenFailed, led, ["Couldnt open file: " ++ name ++ ".WAV"])
  | some c =>
    if c.validWav then
      (PlaybackResult.Completed, lastLed (envRun c.samples envInit).2 led, [])
    else
      (PlaybackResult.FormatInvalid, led, [name ++ ".WAV" ++ ": Not a valid WAV"])

/-- The straight-line sequence of `playfile` calls in `loop`: each clip is
played unconditionally, whatever the previous results were, threading the
mouth-LED state through. -/
def playSeq (store : String → Option Clip) :
    List String → LedState → List (String × PlaybackResult) × LedState
  | [], led => ([], led)
  | n :: rest, led =>
    let p := playfile store n led
    let r := playSeq store rest p.2.1
    ((n, p.1) :: r.1, r.2)

/-- One full activation of `loop`: play the translated phrase sequence,
then `pinMode(LEDMOUTH, INPUT)` — the mouth LED is disabled only after the
whole sequence. -/
def activation (store : String → Option Clip) (h m : Nat) (led : LedState) :
    List (String × PlaybackResult) × LedState :=
  let r := playSeq store (translate h m) led
  (r.1, LedState.off)

/-- A concrete clip store used for counterexamples and witnesses: the
announcement file is missing, the "h11" file has a bad header, and every
other file is a valid two-sample clip. -/
def demoStore : String → Option Clip := fun n =>
  if n = "annc" then none
  else if n = "h11" then some ⟨false, []⟩
  else some ⟨true, [7, -3]⟩

/-- One poll of the debounce logic in `loop`, with `unsigned long`
timestamps reduced mod 2^32.  When the button reads pressed, the
activation fires iff the signed 32-bit difference `millis() - debounceTime`
is nonnegative, and `debounceTime` is left unchanged; when released, no
activation and `debounceTime = millis() + 15`. -/
def debounceStep (pressed : Bool) (now dt : Nat) : Bool × Nat :=
  if pressed then
    if (now % 2 ^ 32 + (2 ^ 32 - dt % 2 ^ 32)) % 2 ^ 32 < 2 ^ 31 then
      (true, dt)
    else (false, dt)
  else (false, (now + 15) % 2 ^ 32)

/-- A run of `loop` polls: each element is (raw button pressed, millis),
the output is the list of activation edges plus the final `debounceTime`. -/
def runDebounce : List (Bool × Nat) → Nat → List Bool × Nat
  | [], dt => ([], dt)
  | (p, now) :: rest, dt =>
    let e := debounceStep p now dt
    let r := runDebounce rest e.2
    (e.1 :: r.1, r.2)

/-- State of the eye-blink ISR: the `uint8_t` statics `counter` and
`blinking`, plus the eye-LED level (`true` = HIGH = eyes open). -/
structure BlinkState where
  counter : Nat
  blinking : Nat
  led : Bool
deriving DecidableEq

/-- One tick of `ISR(TIMER2_OVF_vect)`, taking the two possible random
draws as inputs: `r11` models `random(11)` (so `r11 < 11`) and `r120`
models `random(120)` (so `r120 < 120`).  Decrement the `uint8_t` counter;
on reaching zero, increment `blinking` and either close the eyes for
`5 + random(11)` ticks or open them for `8 + random(120)` ticks. -/
def blinkTick (r11 r120 : Nat) (st : BlinkState) : BlinkState :=
  let c := (st.counter + 255) % 256
  if c = 0 then
    let b := (st.blinking + 1) % 256
    if b % 2 = 1 then ⟨5 + r11, b, false⟩
    else ⟨8 + r120, b, true⟩
  else ⟨c, st.blinking, st.led⟩

/-- A reachable blink state used as a concrete witness input: counter about
to reach zero, `blinking` odd, eyes open. -/
def blinkDemo : BlinkState := ⟨1, 1, true⟩

/-- C1 (counterexample): at hour 23, minute 45 the sketch plays five clips
(announcement, "h11", "m4x", "m5", "pm"), so the claimed upper bound of 4
on the phrase-sequence length is false. -/
theorem phrase_length_counterexample : ¬((translate 23 45).length ≤ 4) := by
  decide

/-- C1 (amended): for every hour in 0..23 and minute in 0..59 the phrase
sequence produced by one activation has length between 4 and 5 inclusive
(announcement + hour clip + one or two minute clips + period clip). -/
theorem phrase_length_bounds :
    ∀ h, h < 24 → ∀ m, m < 60 →
      4 ≤ (translate h m).length ∧ (translate h m).length ≤ 5 := by
  decide

/-- Witness for `phrase_length_bounds` at hour 9, minute 30. -/
theorem phrase_length_witness :
    4 ≤ (translate 9 30).length ∧ (translate 9 30).length ≤ 5 :=
  phrase_length_bounds 9 (by decide) 30 (by decide)

/-- C3: the time-to-phrase translation is total over all 1440 inputs: every
table lookup is in bounds and the `NULL` entry of `mTenX` (which really is
at index 1) is never dereferenced — any such failure would make
`translate?` return `none`, and it never does. -/
theorem translate_total_no_null :
    mTenX[1]? = some none ∧
    ∀ h, h < 24 → ∀ m, m < 60 → (translate? h m).isSome = true := by
  decide

/-- Witness for `translate_total_no_null` at hour 7, minute 23. -/
theorem translate_total_witness : (translate? 7 23).isSome = true :=
  translate_total_no_null.2 7 (by decide) 23 (by decide)

/-- C4: the minute-phrase branches are exactly the three mutually exclusive
cases of the sketch: ones digit 0 gives exactly the one exact-tens clip;
minute 11..19 gives exactly the teen clip at index `minute - 11`; otherwise
exactly two clips, tens clip then ones clip at index `(minute % 10) - 1`;
and `translate 23 45` is the concrete sequence from the spec. -/
theorem minute_branch_spec :
    (∀ m, m < 60 →
      (m % 10 = 0 → minuteClips m = (mTens[m / 10]?).toList) ∧
      (11 ≤ m → m ≤ 19 → minuteClips m = (mTeens[m - 11]?).toList) ∧
      (m % 10 ≠ 0 → ¬(11 ≤ m ∧ m ≤ 19) →
        minuteClips m = (mTenX[m / 10]?).join.toList ++ (mins[m % 10 - 1]?).toList ∧
        (minuteClips m).length = 2)) ∧
    translate 23 45 = ["annc", "h11", "m4x", "m5", "pm"] := by
  decide

/-- Witness for `minute_branch_spec`: the third branch at minute 45. -/
theorem minute_branch_witness :
    minuteClips 45 = (mTenX[45 / 10]?).join.toList ++ (mins[45 % 10 - 1]?).toList ∧
    (minuteClips 45).length = 2 :=
  (minute_branch_spec.1 45 (by decide)).2.2 (by decide) (by decide)

/-- C10: for every buffer holding `.WAV` in its last four characters and
every identifier of 1 to 8 characters, the string handed to `file.open`
is exactly the identifier followed by `.WAV`, and the call re-establishes
the buffer invariant (length 12, extension intact), so the result is
independent of any longer identifier written by an earlier call. -/
theorem filename_assembly :
    ∀ (buf name : List Char),
      buf.length = 12 → buf.drop 8 = wavExt →
      1 ≤ name.length → name.length ≤ 8 →
      fullName buf name = name ++ wavExt ∧
      (writeName buf name).drop 8 = wavExt ∧
      (writeName buf name).length = 12 := by
  intro buf name hlen hext h1 h8
  have ht : (buf.take (8 - name.length)).length = 8 - name.length := by
    rw [List.length_take]; omega
  refine ⟨?_, ?_, ?_⟩
  · unfold fullName writeName
    rw [hext, List.append_assoc]
    exact List.drop_left' ht
  · unfold writeName
    rw [hext]
    refine List.drop_left' ?_
    rw [List.length_append, ht]
    omega
  · unfold writeName
    rw [List.length_append, List.length_append, ht, List.length_drop, hlen]
    omega

/-- Witness for `filename_assembly`: after a call with the longer name
`annc`, a following call with the shorter name `m5` still opens exactly
`m5.WAV`. -/
theorem filename_assembly_witness :
    fullName (writeName initBuf "annc".toList) "m5".toList =
      "m5".toList ++ wavExt :=
  (filename_assembly (writeName initBuf "annc".toList) "m5".toList
    (by decide) (by decide) (by decide) (by decide)).1

/-- C2 (counterexample): one physical press held across two polls after the
15 ms deadline produces the activation edge twice, not once.  Polls: button
released at time 0 (arming the deadline at 15), then held at times 100 and
200 — both held polls trigger, because `loop` never updates `debounceTime`
while the button is pressed. -/
theorem debounce_single_edge_counterexample :
    (runDebounce [(false, 0), (true, 100), (true, 200)] 0).1 = [false, true, true] ∧
    ((runDebounce [(false, 0), (true, 100), (true, 200)] 0).1.count true = 2) := by
  decide

/-- C2 (amended): a press held continuously after satisfying the 15 ms
deadline yields the activation edge on every poll while held (the code
does not latch the edge), and the deadline is re-armed on every poll where
the button is released. -/
theorem debounce_retrigger_while_held :
    ∀ (dt n1 n2 : Nat),
      (n1 % 2 ^ 32 + (2 ^ 32 - dt % 2 ^ 32)) % 2 ^ 32 < 2 ^ 31 →
      (n2 % 2 ^ 32 + (2 ^ 32 - dt % 2 ^ 32)) % 2 ^ 32 < 2 ^ 31 →
      (runDebounce [(true, n1), (true, n2)] dt).1 = [true, true] ∧
      ∀ now, debounceStep false now dt = (false, (now + 15) % 2 ^ 32) := by
  intro dt n1 n2 h1 h2
  rw [Nat.mod_add_mod] at h1 h2
  norm_num at h1 h2
  constructor
  · simp [runDebounce, debounceStep, h1, h2]
  · intro now
    simp [debounceStep]

/-- Witness for `debounce_retrigger_while_held` with the deadline armed at
15 and the button held at times 100 and 5000. -/
theorem debounce_retrigger_witness :
    (runDebounce [(true, 100), (true, 5000)] 15).1 = [true, true] ∧
    ∀ now, debounceStep false now 15 = (false, (now + 15) % 2 ^ 32) :=
  debounce_retrigger_while_held 15 100 5000 (by decide) (by decide)

/-- C8: the eye LED level changes only on a tick where the decremented
counter reaches zero (i.e. the stored counter was 1), and the freshly
drawn dwell lies in [5, 15] ticks when entering Closed (LED low) and in
[8, 127] ticks when entering Open (LED high), for every state with the
counter in `uint8_t` range and every admissible random draw. -/
theorem blink_dwell_bounds :
    ∀ (st : BlinkState) (r11 r120 : Nat),
      st.counter < 256 → r11 < 11 → r120 < 120 →
      ((blinkTick r11 r120 st).led ≠ st.led → st.counter = 1) ∧
      (st.counter = 1 →
        ((blinkTick r11 r120 st).led = false →
          5 ≤ (blinkTick r11 r120 st).counter ∧
          (blinkTick r11 r120 st).counter ≤ 15) ∧
        ((blinkTick r11 r120 st).led = true →
          8 ≤ (blinkTick r11 r120 st).counter ∧
          (blinkTick r11 r120 st).counter ≤ 127)) := by
  intro st r11 r120 hc h11 h120
  constructor
  · intro hled
    by_contra hne
    have hz : (st.counter + 255) % 256 ≠ 0 := by omega
    simp [blinkTick, hz] at hled
  · intro h1
    have hz : (st.counter + 255) % 256 = 0 := by omega
    by_cases hb : (st.blinking + 1) % 256 % 2 = 1
    · simp [blinkTick, hz, hb]
      omega
    · simp [blinkTick, hz, hb]
      omega

/-- Witness for `blink_dwell_bounds` at the state `blinkDemo` with maximal
draws. -/
theorem blink_dwell_witness :
    ((blinkTick 10 119 blinkDemo).led ≠ blinkDemo.led → blinkDemo.counter = 1) ∧
    (blinkDemo.counter = 1 →
      ((blinkTick 10 119 blinkDemo).led = false →
        5 ≤ (blinkTick 10 119 blinkDemo).counter ∧
        (blinkTick 10 119 blinkDemo).counter ≤ 15) ∧
      ((blinkTick 10 119 blinkDemo).led = true →
        8 ≤ (blinkTick 10 119 blinkDemo).counter ∧
        (blinkTick 10 119 blinkDemo).counter ≤ 127)) :=
  blink_dwell_bounds blinkDemo 10 119 (by decide) (by decide) (by decide)

/-- C5 (counterexample): a single `playfile` call does not leave the mouth
LED in the off/high-impedance state on every exit path.  On the open-failure
path the LED keeps its stale brightness, and even a completed playback
leaves the last window brightness, not the off state. -/
theorem led_off_per_play_counterexample :
    (playfile demoStore "annc" (LedState.bright 7)).2.1 = LedState.bright 7 ∧
    (playfile demoStore "annc" (LedState.bright 7)).2.1 ≠ LedState.off ∧
    (playfile demoStore "m5" LedState.off).1 = PlaybackResult.Completed ∧
    (playfile demoStore "m5" LedState.off).2.1 ≠ LedState.off := by
  decide

/-- C5 (amended): the off/high-impedance state is restored once per
activation, after the whole phrase sequence (`pinMode(LEDMOUTH, INPUT)` at
the end of `loop`); individual `playfile` calls leave the LED unchanged on
the open-failure and invalid-header paths (and holding the last window
brightness on completion). -/
theorem led_off_per_activation :
    ∀ (store : String → Option Clip) (h m : Nat) (led : LedState),
      (activation store h m led).2 = LedState.off ∧
      (∀ n l, store n = none → (playfile store n l).2.1 = l) ∧
      (∀ n c l, store n = some c → c.validWav = false →
        (playfile store n l).2.1 = l) := by
  intro store h m led
  refine ⟨rfl, ?_, ?_⟩
  · intro n l hn
    simp [playfile, hn]
  · intro n c l hn hv
    simp [playfile, hn, hv]

/-- Witness for `led_off_per_activation` with the demo store at 23:45. -/
theorem led_off_witness :
    (activation demoStore 23 45 (LedState.bright 9)).2 = LedState.off ∧
    (playfile demoStore "annc" (LedState.bright 3)).2.1 = LedState.bright 3 ∧
    (playfile demoStore "h11" (LedState.bright 4)).2.1 = LedState.bright 4 :=
  ⟨(led_off_per_activation demoStore 23 45 (LedState.bright 9)).1,
   (led_off_per_activation demoStore 23 45 (LedState.bright 9)).2.1 "annc"
     (LedState.bright 3) (by decide),
   (led_off_per_activation demoStore 23 45 (LedState.bright 9)).2.2 "h11"
     ⟨false, []⟩ (LedState.bright 4) (by decide) rfl⟩

/-- C7: per-clip failures are recoverable: `loop` attempts every clip of
the phrase sequence whatever the per-clip results were (the sequence of
attempted names always equals the phrase sequence), a missing file yields
`OpenFailed` with a log line, and a bad header yields `FormatInvalid` with
a log line — neither aborts the remaining clips. -/
theorem clip_failure_recoverable :
    ∀ (store : String → Option Clip) (names : List String) (led : LedState),
      ((playSeq store names led).1.map Prod.fst = names) ∧
      (∀ n l, store n = none →
        (playfile store n l).1 = PlaybackResult.OpenFailed ∧
        (playfile store n l).2.2 ≠ []) ∧
      (∀ n c l, store n = some c → c.validWav = false →
        (playfile store n l).1 = PlaybackResult.FormatInvalid ∧
        (playfile store n l).2.2 ≠ []) := by
  intro store names led
  refine ⟨?_, ?_, ?_⟩
  · induction names generalizing led with
    | nil => rfl
    | cons n rest ih => simp [playSeq, ih]
  · intro n l hn
    simp [playfile, hn]
  · intro n c l hn hv
    simp [playfile, hn, hv]

/-- Witness for `clip_failure_recoverable`: with the demo store (missing
announcement, bad "h11" header) every clip of the 23:45 phrase is still
attempted. -/
theorem clip_failure_witness :
    ((playSeq demoStore (translate 23 45) LedState.off).1.map Prod.fst =
      translate 23 45) ∧
    ((playfile demoStore "annc" LedState.off).1 = PlaybackResult.OpenFailed ∧
      (playfile demoStore "annc" LedState.off).2.2 ≠ []) ∧
    ((playfile demoStore "h11" LedState.off).1 = PlaybackResult.FormatInvalid ∧
      (playfile demoStore "h11" LedState.off).2.2 ≠ []) :=
  ⟨(clip_failure_recoverable demoStore (translate 23 45) LedState.off).1,
   (clip_failure_recoverable demoStore (translate 23 45) LedState.off).2.1
     "annc" LedState.off (by decide),
   (clip_failure_recoverable demoStore (translate 23 45) LedState.off).2.2
     "h11" ⟨false, []⟩ LedState.off (by decide) rfl⟩

/-- Helper: composing signed 8-bit wraparounds. -/
theorem wrap8_add (a b : Int) : wrap8 (wrap8 a + b) = wrap8 (a + b) := by
  unfold wrap8; omega

/-- Helper: wraparound of a count in 1..255 is nonzero. -/
theorem wrap8_ne_zero {k : Int} (h1 : 1 ≤ k) (h2 : k ≤ 255) : wrap8 k ≠ 0 := by
  unfold wrap8; omega

/-- Helper: away from a window boundary, one sample-loop iteration is
exactly a min/max fold of the running bounds (using the invariant
`lo ≤ hi` to justify the `else if` shortcut of the code). -/
theorem envStep_fold (s : Int) (st : EnvState) (h : st.lo ≤ st.hi)
    (hc : wrap8 (st.counter + 1) ≠ 0) :
    envStep s st = (⟨min st.lo s, max st.hi s, wrap8 (st.counter + 1)⟩, none) := by
  unfold envStep
  rw [if_neg hc]
  split_ifs with h1 h2
  · rw [min_eq_right h1.le, max_eq_left (h1.le.trans h)]
  · rw [min_eq_left (not_lt.mp h1), max_eq_right h2.le]
  · rw [min_eq_left (not_lt.mp h1), max_eq_left (not_lt.mp h2)]

/-- Helper: a min-fold never exceeds its seed. -/
theorem foldl_min_le (l : List Int) (a : Int) : l.foldl min a ≤ a := by
  induction l generalizing a with
  | nil => exact le_refl a
  | cons s rest ih =>
    simp only [List.foldl]
    exact le_trans (ih (min a s)) (min_le_left a s)

/-- Helper: a max-fold never drops below its seed. -/
theorem le_foldl_max (l : List Int) (a : Int) : a ≤ l.foldl max a := by
  induction l generalizing a with
  | nil => exact le_refl a
  | cons s rest ih =>
    simp only [List.foldl]
    exact le_trans (le_max_left a s) (ih (max a s))

/-- Helper: as long as the window counter has not wrapped back to zero
(at most 255 steps after a boundary), the sample loop emits no LED write
and just folds min/max. -/
theorem envRun_no_write :
    ∀ (ss : List Int) (st : EnvState) (j : Int),
      st.lo ≤ st.hi → st.counter = wrap8 j → 0 ≤ j → j + ss.length ≤ 255 →
      envRun ss st =
        (⟨ss.foldl min st.lo, ss.foldl max st.hi, wrap8 (j + ss.length)⟩, []) := by
  intro ss
  induction ss with
  | nil =>
    intro st j h hcj hj0 hlen
    simp only [envRun, List.foldl, List.length_nil, Nat.cast_zero, add_zero]
    rw [← hcj]
  | cons s rest ih =>
    intro st j h hcj hj0 hlen
    have hc : wrap8 (st.counter + 1) ≠ 0 := by
      rw [hcj, wrap8_add]
      apply wrap8_ne_zero
      · omega
      · simp only [List.length_cons] at hlen
        push_cast at hlen
        omega
    simp only [envRun, envStep_fold s st h hc, Option.toList_none, List.nil_append]
    have hstep := ih ⟨min st.lo s, max st.hi s, wrap8 (st.counter + 1)⟩ (j + 1)
      (le_trans (min_le_left _ _) (le_trans h (le_max_left _ _)))
      (by rw [hcj, wrap8_add])
      (by omega)
      (by simp only [List.length_cons] at hlen; push_cast at hlen ⊢; omega)
    rw [hstep]
    simp only [List.foldl, List.length_cons]
    have harg : j + 1 + (rest.length : Int) = j + ((rest.length : Int) + 1) := by
      ring
    push_cast
    rw [harg]

/-- Helper: the sample loop processes an appended list sequentially. -/
theorem envRun_append (l1 l2 : List Int) (st : EnvState) :
    envRun (l1 ++ l2) st =
      ((envRun l2 (envRun l1 st).1).1,
       (envRun l1 st).2 ++ (envRun l2 (envRun l1 st).1).2) := by
  induction l1 generalizing st with
  | nil => simp [envRun]
  | cons s rest ih =>
    simp only [List.cons_append, envRun, List.append_eq, ih, List.append_assoc]

/-- C6: starting just after a window boundary, the next 255 samples only
fold the running min/max with no LED write, and the 256th sample produces
exactly one write whose value is `clamp((high - low) * 4, 0, 255)` for the
window's running bounds, after which both bounds are reset to the current
sample and the counter to zero. -/
theorem mouth_window_brightness :
    ∀ (st : EnvState) (ss : List Int) (s : Int),
      st.counter = 0 → st.lo ≤ st.hi → ss.length = 255 →
      envRun (ss ++ [s]) st =
        (⟨s, s, 0⟩,
         [max 0 (min ((ss.foldl max st.hi - ss.foldl min st.lo) * 4) 255)]) := by
  intro st ss s hc h hlen
  have hrun := envRun_no_write ss st 0 h (by rw [hc]; rfl) (le_refl 0)
    (by rw [hlen]; norm_num)
  rw [envRun_append, hrun]
  have hb : wrap8 (wrap8 (0 + (ss.length : Int)) + 1) = 0 := by
    rw [hlen]; rfl
  simp only [envRun, envStep, hb, if_pos, Option.toList_some, List.nil_append,
    List.append_nil, List.singleton_append]
  have hLH : ss.foldl min st.lo ≤ ss.foldl max st.hi :=
    le_trans (foldl_min_le ss st.lo) (le_trans h (le_foldl_max ss st.hi))
  unfold clampB
  split_ifs with hgt
  · rw [min_eq_right (by omega), max_eq_right (by norm_num)]
  · rw [min_eq_left (by omega), max_eq_right (by omega)]

/-- Witness for `mouth_window_brightness`: a window of 255 samples of
value 8 after a reset at 0, closed by the sample 3. -/
theorem mouth_window_witness :
    envRun (List.replicate 255 (8 : Int) ++ [3]) ⟨0, 0, 0⟩ =
      (⟨3, 3, 0⟩,
       [max 0 (min (((List.replicate 255 (8 : Int)).foldl max 0 -
                     (List.replicate 255 (8 : Int)).foldl min 0) * 4) 255)]) :=
  mouth_window_brightness ⟨0, 0, 0⟩ (List.replicate 255 8) 3 rfl (le_refl 0)
    (List.length_replicate 255 8)

/-- C9: the invariant `lo ≤ hi` is established by the initialization
`lo = hi = 0`, re-established at every window reset, and preserved by the
min/max folding; consequently every brightness the sample loop writes lies
in [0, 255] even though the code has no explicit lower clamp at 0. -/
theorem env_invariant_brightness_range :
    ∀ (ss : List Int) (st : EnvState), st.lo ≤ st.hi →
      (envRun ss st).1.lo ≤ (envRun ss st).1.hi ∧
      ∀ b ∈ (envRun ss st).2, 0 ≤ b ∧ b ≤ 255 := by
  intro ss
  induction ss with
  | nil =>
    intro st h
    simp [envRun, h]
  | cons s rest ih =>
    intro st h
    by_cases hc : wrap8 (st.counter + 1) = 0
    · simp only [envRun, envStep, hc, if_pos, Option.toList_some,
        List.singleton_append]
      refine ⟨(ih ⟨s, s, 0⟩ (le_refl s)).1, ?_⟩
      intro b hb
      rcases List.mem_cons.mp hb with hb | hb
      · subst hb
        unfold clampB
        split_ifs with hgt <;> omega
      · exact (ih ⟨s, s, 0⟩ (le_refl s)).2 b hb
    · simp only [envRun, envStep_fold s st h hc, Option.toList_none,
        List.nil_append]
      exact ih ⟨min st.lo s, max st.hi s, wrap8 (st.counter + 1)⟩
        (le_trans (min_le_left _ _) (le_trans h (le_max_left _ _)))

/-- Witness for `env_invariant_brightness_range` on a short run from the
initial `playfile` state. -/
theorem env_invariant_witness :
    (envRun [7, -3] envInit).1.lo ≤ (envRun [7, -3] envInit).1.hi ∧
    ∀ b ∈ (envRun [7, -3] envInit).2, 0 ≤ b ∧ b ≤ 255 :=
  env_invariant_brightness_range [7, -3] envInit (by decide)

end TalkingClock
